import Mathlib

/-!
Verification of the action interpretation and execution engine of AutoGLM-Web:
`phone_agent/actions/handler.py` (structured-command dispatcher and the
`parse_action` instruction parser) and `phone_agent/config/timing.py`
(environment-overridable timing configuration).

The Python code is shallowly embedded: Python literal values become `LitValue`,
the action dictionary becomes an association list, device calls and callbacks
become events recorded in a trace, and Python exceptions become `Except String`.
Python float arithmetic (used by `_convert_relative_to_absolute` and `float(...)`)
is modelled exactly as IEEE-754 binary64 round-to-nearest-even over ℚ, ignoring
overflow to infinity and subnormal underflow, which are unreachable at the
magnitudes involved.
-/

attribute [local semireducible] Rat.add Rat.mul Rat.inv Rat.sub

set_option maxRecDepth 16000

deriving instance DecidableEq for Except

namespace AutoGLM

/-! ### IEEE-754 binary64 model over ℚ -/

/-- Bit length of a natural number, via an explicit fuel argument so that the
kernel can evaluate it. `bitLenAux f n` is the bit length of `n` provided
`f > log2 n`. -/
def bitLenAux : Nat → Nat → Nat
  | 0, _ => 0
  | f + 1, n => if n = 0 then 0 else bitLenAux f (n / 2) + 1

/-- Bit length: `bitLen 0 = 0`, and `2 ^ (bitLen n - 1) ≤ n < 2 ^ bitLen n` for `n > 0`. -/
def bitLen (n : Nat) : Nat := bitLenAux (n + 1) n

/-- For `p > 0`, the binary exponent `e` with `2 ^ e ≤ p < 2 ^ (e + 1)`. -/
def dblExp (p : ℚ) : ℤ :=
  let e0 : ℤ := (bitLen p.num.natAbs : ℤ) - (bitLen p.den : ℤ)
  if (2 : ℚ) ^ e0 ≤ p then e0 else e0 - 1

/-- Round a rational to the nearest integer, ties to even. -/
def roundTiesEven (q : ℚ) : ℤ :=
  let f := ⌊q⌋
  let r := q - (f : ℚ)
  if r < 1 / 2 then f
  else if (1 / 2 : ℚ) < r then f + 1
  else if f % 2 = 0 then f else f + 1

/-- Round a rational to the nearest IEEE-754 binary64 value (53-bit significand,
round to nearest, ties to even). Overflow and subnormals are not modelled. -/
def roundDouble (q : ℚ) : ℚ :=
  if q = 0 then 0
  else
    let p := |q|
    let e := dblExp p
    let s : ℚ := 2 ^ ((52 : ℤ) - e)
    let m := roundTiesEven (p * s)
    (if 0 < q then 1 else -1) * ((m : ℚ) / s)

/-- Python `int(...)` applied to a float value: truncation toward zero. -/
def pyInt (q : ℚ) : ℤ := if 0 ≤ q then ⌊q⌋ else ⌈q⌉

/-! ### Python literal values and dictionaries -/

/-- A scalar Python literal: an element of a list literal. The source's
`ast.literal_eval` also admits nested containers, which the action grammar
never uses (its only sequences are coordinate pairs of numbers). -/
inductive LitAtom where
  | int (n : ℤ)
  | float (q : ℚ)
  | str (s : String)
  | bool (b : Bool)
  | none
deriving DecidableEq, Repr

/-- A Python literal value, as produced by `ast.literal_eval` on the safe
literal grammar: integers, floats (held as their exact rational value),
strings, lists of scalars, booleans and `None`. -/
inductive LitValue where
  | int (n : ℤ)
  | float (q : ℚ)
  | str (s : String)
  | list (xs : List LitAtom)
  | bool (b : Bool)
  | none
deriving DecidableEq, Repr

/-- Python truthiness (`bool(v)`), as used by `if not element:` style guards. -/
def LitValue.truthy : LitValue → Bool
  | .int n => n ≠ 0
  | .float q => q ≠ 0
  | .str s => s ≠ ""
  | .list xs => !xs.isEmpty
  | .bool b => b
  | .none => false

/-- The Python type name of a value, as it appears in runtime error messages. -/
def LitValue.typeName : LitValue → String
  | .int _ => "int"
  | .float _ => "float"
  | .str _ => "str"
  | .list _ => "list"
  | .bool _ => "bool"
  | .none => "NoneType"

/-- Rendering of a value inside an f-string (`str(v)`). Strings render as
themselves and the scalar cases match Python; the float and list renderings are
schematic stand-ins (Python's shortest-roundtrip float repr is not modelled),
reachable only through messages about malformed commands. -/
def pyStr : LitValue → String
  | .str s => s
  | .int n => toString n
  | .bool b => if b then "True" else "False"
  | .none => "None"
  | .float q => toString q.num ++ "/" ++ toString q.den
  | .list _ => "[...]"

/-- `str(x)` for an optional value: `dict.get` misses become Python `None`. -/
def pyStrOpt : Option LitValue → String
  | Option.none => "None"
  | some v => pyStr v

/-- An action dictionary: string keys to literal values, in insertion order. -/
abbrev ActionDict := List (String × LitValue)

/-- `d.get(k)`: the value of the first binding of `k`, if any. -/
def dictGet (a : ActionDict) (k : String) : Option LitValue :=
  match a with
  | [] => Option.none
  | (k', v) :: rest => if k' = k then some v else dictGet rest k

/-- `d.get(k, default)`. -/
def dictGetD (a : ActionDict) (k : String) (d : LitValue) : LitValue :=
  (dictGet a k).getD d

/-- Python `bool(d.get(k))`: falsy when the key is missing or its value is falsy. -/
def truthyOpt : Option LitValue → Bool
  | Option.none => false
  | some v => v.truthy

/-- `d[k] = v`: overwrite in place when `k` is present, else append. -/
def dictSet : ActionDict → String → LitValue → ActionDict
  | [], k, v => [(k, v)]
  | (k', v') :: rest, k, v =>
    if k' = k then (k, v) :: rest else (k', v') :: dictSet rest k v

/-! ### The device control surface and callbacks, as a trace of invocations -/

/-- One invocation of the device control surface, a safety callback, or
`time.sleep`, in the order the dispatcher issues them. -/
inductive DeviceOp where
  | tap (x y : ℤ)
  | double_tap (x y : ℤ)
  | long_press (x y : ℤ)
  | swipe (x1 y1 x2 y2 : ℤ)
  | launch_app (app : LitValue)
  | back
  | home
  | detect_and_set_adb_keyboard
  | clear_text
  | type_text (text : LitValue)
  | restore_keyboard (ime : String)
  | sleep (seconds : ℚ)
  | confirm_call (message : LitValue)
  | takeover_call (message : LitValue)
deriving DecidableEq, Repr

/-- The timing table `TIMING_CONFIG.action` (`ActionTimingConfig`), delays
in seconds. -/
structure ActionTimingConfig where
  keyboard_switch_delay : ℚ
  text_clear_delay : ℚ
  text_input_delay : ℚ
  keyboard_restore_delay : ℚ
deriving DecidableEq, Repr

/-- The dataclass defaults of `ActionTimingConfig`: every delay is 1.0 s. -/
def defaultActionTiming : ActionTimingConfig := ⟨1, 1, 1, 1⟩

/-- The dispatcher's collaborators: the confirmation predicate, the takeover
procedure, the device control surface (with the outcome of `launch_app` and
the prior input method reported by `detect_and_set_adb_keyboard`), the timing
table, and a fault oracle telling which invocations raise (and with what
message). -/
structure Env where
  timing : ActionTimingConfig
  confirm : LitValue → Bool
  launchOk : LitValue → Bool
  priorIme : String
  fault : DeviceOp → Option String

/-- A computation against the device: given the environment and the trace so
far, it returns either a value or the message of a raised exception, together
with the extended trace. -/
def Eff (α : Type) : Type := Env → List DeviceOp → Except String α × List DeviceOp

/-- Return a value, invoking nothing. -/
def Eff.pure (a : α) : Eff α := fun _ tr => (Except.ok a, tr)

/-- Raise an exception with the given message. -/
def Eff.raise (e : String) : Eff α := fun _ tr => (Except.error e, tr)

/-- Sequencing: run `m`; on success feed its value to `k`, on an exception
propagate it. -/
def Eff.seq (m : Eff α) (k : α → Eff β) : Eff β := fun env tr =>
  match m env tr with
  | (Except.ok a, tr2) => k a env tr2
  | (Except.error e, tr2) => (Except.error e, tr2)

/-- Lift a pure computation that may raise. -/
def Eff.liftEx (x : Except String α) : Eff α := fun _ tr => (x, tr)

/-- Invoke a device operation: it is recorded in the trace, and raises when the
fault oracle says so. -/
def emit (op : DeviceOp) : Eff Unit := fun env tr =>
  match env.fault op with
  | some m => (Except.error m, tr ++ [op])
  | Option.none => (Except.ok (), tr ++ [op])

/-- `self.confirmation_callback(message)`. -/
def askConfirm (v : LitValue) : Eff Bool := fun env tr =>
  match env.fault (DeviceOp.confirm_call v) with
  | some m => (Except.error m, tr ++ [DeviceOp.confirm_call v])
  | Option.none => (Except.ok (env.confirm v), tr ++ [DeviceOp.confirm_call v])

/-- `self.takeover_callback(message)`. -/
def callTakeover (v : LitValue) : Eff Unit := emit (DeviceOp.takeover_call v)

/-- `launch_app(app_name, self.device_id)`, returning whether the app resolved. -/
def callLaunch (v : LitValue) : Eff Bool := fun env tr =>
  match env.fault (DeviceOp.launch_app v) with
  | some m => (Except.error m, tr ++ [DeviceOp.launch_app v])
  | Option.none => (Except.ok (env.launchOk v), tr ++ [DeviceOp.launch_app v])

/-- `detect_and_set_adb_keyboard(self.device_id)`, capturing the prior input
method. -/
def detectKeyboard : Eff String := fun env tr =>
  match env.fault DeviceOp.detect_and_set_adb_keyboard with
  | some m => (Except.error m, tr ++ [DeviceOp.detect_and_set_adb_keyboard])
  | Option.none => (Except.ok env.priorIme, tr ++ [DeviceOp.detect_and_set_adb_keyboard])

/-- `time.sleep(q)`: raises `ValueError` on a negative argument, otherwise just
passes time (recorded in the trace). -/
def sleepEff (q : ℚ) : Eff Unit := fun _ tr =>
  if q < 0 then (Except.error "sleep length must be non-negative", tr ++ [DeviceOp.sleep q])
  else (Except.ok (), tr ++ [DeviceOp.sleep q])

/-- `time.sleep` on one of the configured action delays. -/
def sleepDelay (f : ActionTimingConfig → ℚ) : Eff Unit := fun env tr =>
  sleepEff (f env.timing) env tr

/-! ### Coordinate conversion (`_convert_relative_to_absolute`) -/

/-- Python `element[i]` on a literal value. -/
def pySubscript (v : LitValue) (i : ℕ) : Except String LitAtom :=
  match v with
  | .list xs =>
    match xs.get? i with
    | some x => Except.ok x
    | Option.none => Except.error "list index out of range"
  | .str s =>
    match s.data.get? i with
    | some c => Except.ok (.str (String.mk [c]))
    | Option.none => Except.error "string index out of range"
  | w => Except.error ("'" ++ (LitValue.typeName w) ++ "' object is not subscriptable")

/-- The numeric value of a scalar operand of `/` (Python booleans are the
integers 0 and 1); non-numeric operands raise `TypeError`. -/
def pyToNumber (v : LitAtom) : Except String ℚ :=
  match v with
  | .int n => Except.ok (n : ℚ)
  | .float q => Except.ok q
  | .bool b => Except.ok (if b then 1 else 0)
  | .str _ => Except.error "unsupported operand type(s) for /: 'str' and 'int'"
  | .none => Except.error "unsupported operand type(s) for /: 'NoneType' and 'int'"

/-- One axis of `_convert_relative_to_absolute`: `int(c / 1000 * dim)` in
Python float arithmetic — divide (rounded to double), multiply by the screen
dimension (rounded to double), truncate toward zero. -/
def convertCoord (c : ℚ) (dim : ℤ) : ℤ :=
  pyInt (roundDouble (roundDouble (c / 1000) * (dim : ℚ)))

/-- `_convert_relative_to_absolute(element, screen_width, screen_height)`:
`x = int(element[0] / 1000 * screen_width)`, `y = int(element[1] / 1000 * screen_height)`. -/
def convert_relative_to_absolute (element : LitValue) (screen_width screen_height : ℤ) :
    Except String (ℤ × ℤ) :=
  match pySubscript element 0 with
  | Except.error e => Except.error e
  | Except.ok v0 =>
    match pyToNumber v0 with
    | Except.error e => Except.error e
    | Except.ok q0 =>
      let x := convertCoord q0 screen_width
      match pySubscript element 1 with
      | Except.error e => Except.error e
      | Except.ok v1 =>
        match pyToNumber v1 with
        | Except.error e => Except.error e
        | Except.ok q1 => Except.ok (x, convertCoord q1 screen_height)

/-! ### The fourteen action handlers -/

/-- `ActionResult(success, should_finish, message, requires_confirmation)`.
The `message` holds whatever value the code put there (`finish` passes the
command's `message` value through unchanged). -/
structure ActionResult where
  success : Bool
  should_finish : Bool
  message : Option LitValue := Option.none
  requires_confirmation : Bool := false
deriving DecidableEq, Repr

/-- `ActionResult(True, False)`. -/
def okResult : ActionResult := ⟨true, false, Option.none, false⟩

/-- `_handle_launch`. -/
def handle_launch (a : ActionDict) (_w _h : ℤ) : Eff ActionResult :=
  let appOpt := dictGet a "app"
  if truthyOpt appOpt then
    let app := appOpt.getD LitValue.none
    Eff.seq (callLaunch app) fun ok =>
      if ok then Eff.pure okResult
      else Eff.pure ⟨false, false, some (.str ("App not found: " ++ pyStr app)), false⟩
  else Eff.pure ⟨false, false, some (.str "No app name specified"), false⟩

/-- `_handle_tap`: element check, coordinate conversion, then the sensitive
operation gate — when a `message` key is present the confirmation callback
decides; a decline returns failure with `should_finish = True` — and finally
the tap itself. -/
def handle_tap (a : ActionDict) (w h : ℤ) : Eff ActionResult :=
  let elOpt := dictGet a "element"
  if truthyOpt elOpt then
    Eff.seq (Eff.liftEx (convert_relative_to_absolute (elOpt.getD LitValue.none) w h)) fun xy =>
      match dictGet a "message" with
      | some mv =>
        Eff.seq (askConfirm mv) fun ok =>
          if ok then Eff.seq (emit (DeviceOp.tap xy.1 xy.2)) fun _ => Eff.pure okResult
          else Eff.pure ⟨false, true, some (.str "User cancelled sensitive operation"), false⟩
      | Option.none => Eff.seq (emit (DeviceOp.tap xy.1 xy.2)) fun _ => Eff.pure okResult
  else Eff.pure ⟨false, false, some (.str "No element coordinates"), false⟩

/-- `_handle_type`: switch to the ADB keyboard (capturing the prior input
method), wait, clear the field, wait, type the text, wait, restore the prior
input method, wait. -/
def handle_type (a : ActionDict) (_w _h : ℤ) : Eff ActionResult :=
  let text := dictGetD a "text" (.str "")
  Eff.seq detectKeyboard fun original_ime =>
  Eff.seq (sleepDelay ActionTimingConfig.keyboard_switch_delay) fun _ =>
  Eff.seq (emit DeviceOp.clear_text) fun _ =>
  Eff.seq (sleepDelay ActionTimingConfig.text_clear_delay) fun _ =>
  Eff.seq (emit (DeviceOp.type_text text)) fun _ =>
  Eff.seq (sleepDelay ActionTimingConfig.text_input_delay) fun _ =>
  Eff.seq (emit (DeviceOp.restore_keyboard original_ime)) fun _ =>
  Eff.seq (sleepDelay ActionTimingConfig.keyboard_restore_delay) fun _ =>
  Eff.pure okResult

/-- `_handle_swipe`. -/
def handle_swipe (a : ActionDict) (w h : ℤ) : Eff ActionResult :=
  let startOpt := dictGet a "start"
  let endOpt := dictGet a "end"
  if !truthyOpt startOpt || !truthyOpt endOpt then
    Eff.pure ⟨false, false, some (.str "Missing swipe coordinates"), false⟩
  else
    Eff.seq (Eff.liftEx (convert_relative_to_absolute (startOpt.getD LitValue.none) w h)) fun p1 =>
    Eff.seq (Eff.liftEx (convert_relative_to_absolute (endOpt.getD LitValue.none) w h)) fun p2 =>
    Eff.seq (emit (DeviceOp.swipe p1.1 p1.2 p2.1 p2.2)) fun _ =>
    Eff.pure okResult

/-- `_handle_back`. -/
def handle_back (_a : ActionDict) (_w _h : ℤ) : Eff ActionResult :=
  Eff.seq (emit DeviceOp.back) fun _ => Eff.pure okResult

/-- `_handle_home`. -/
def handle_home (_a : ActionDict) (_w _h : ℤ) : Eff ActionResult :=
  Eff.seq (emit DeviceOp.home) fun _ => Eff.pure okResult

/-- `_handle_double_tap`: element check, conversion, gesture. There is no
confirmation gate in this handler. -/
def handle_double_tap (a : ActionDict) (w h : ℤ) : Eff ActionResult :=
  let elOpt := dictGet a "element"
  if truthyOpt elOpt then
    Eff.seq (Eff.liftEx (convert_relative_to_absolute (elOpt.getD LitValue.none) w h)) fun xy =>
    Eff.seq (emit (DeviceOp.double_tap xy.1 xy.2)) fun _ =>
    Eff.pure okResult
  else Eff.pure ⟨false, false, some (.str "No element coordinates"), false⟩

/-- `_handle_long_press`: element check, conversion, gesture. There is no
confirmation gate in this handler. -/
def handle_long_press (a : ActionDict) (w h : ℤ) : Eff ActionResult :=
  let elOpt := dictGet a "element"
  if truthyOpt elOpt then
    Eff.seq (Eff.liftEx (convert_relative_to_absolute (elOpt.getD LitValue.none) w h)) fun xy =>
    Eff.seq (emit (DeviceOp.long_press xy.1 xy.2)) fun _ =>
    Eff.pure okResult
  else Eff.pure ⟨false, false, some (.str "No element coordinates"), false⟩

/-! ### Python string helpers and `float(...)` on strings -/

/-- Python whitespace, as stripped by `str.strip()` and `float(...)`. -/
def isPySpace (c : Char) : Bool :=
  c = ' ' || c = '\t' || c = '\n' || c = '\r' || c = '\x0b' || c = '\x0c'

/-- `str.strip()`: remove leading and trailing whitespace. -/
def pyStripChars (cs : List Char) : List Char :=
  ((cs.dropWhile isPySpace).reverse.dropWhile isPySpace).reverse

/-- Whether the second list starts with the first. -/
def leadsWith : List Char → List Char → Bool
  | [], _ => true
  | _ :: _, [] => false
  | p :: ps, c :: cs => p = c && leadsWith ps cs

/-- Fuel-driven worker for `replaceAll`. -/
def replaceAllAux : Nat → List Char → List Char → List Char → List Char
  | 0, _, _, s => s
  | f + 1, pat, repl, s =>
    match s with
    | [] => []
    | c :: rest =>
      if leadsWith pat s then repl ++ replaceAllAux f pat repl (s.drop pat.length)
      else c :: replaceAllAux f pat repl rest

/-- `str.replace(pat, repl)`: replace every non-overlapping occurrence, left to
right (the source only uses non-empty patterns). -/
def replaceAll (pat repl s : List Char) : List Char :=
  replaceAllAux (s.length + 1) pat repl s

/-- Fuel-driven worker for `splitAfterFirst`. -/
def splitAfterFirstAux : Nat → List Char → List Char → Option (List Char)
  | 0, _, _ => Option.none
  | f + 1, pat, s =>
    match s with
    | [] => Option.none
    | _ :: rest =>
      if leadsWith pat s then some (s.drop pat.length)
      else splitAfterFirstAux f pat rest

/-- `s.split(pat, 1)[1]`: the part after the first occurrence of `pat`;
`none` when `pat` does not occur (Python then raises `IndexError`). -/
def splitAfterFirst (pat s : List Char) : Option (List Char) :=
  splitAfterFirstAux (s.length + 1) pat s

/-- Python slice `s[1:-2]`: drop the first character and the last two
(lenient on short strings, like Python). -/
def slice1m2 (cs : List Char) : List Char := ((cs.drop 1).dropLast).dropLast

/-- Numeric value of a digit run. -/
def digitsVal (ds : List Char) : ℕ :=
  ds.foldl (fun acc c => acc * 10 + (c.toNat - '0'.toNat)) 0

/-- Python `float(...)` applied to a string: optional surrounding whitespace, an
optional sign, decimal digits with an optional fraction and an optional
exponent; the resulting decimal value is rounded to the nearest binary64.
`none` means Python raises `ValueError`. (The special spellings `inf`/`nan`,
digit-group underscores, and overflow to infinity are not modelled; the action
grammar never produces them.) -/
def pyFloatChars (cs0 : List Char) : Option ℚ :=
  let cs1 := pyStripChars cs0
  let sgn : ℚ × List Char :=
    match cs1 with
    | '-' :: r => (-1, r)
    | '+' :: r => (1, r)
    | r => (1, r)
  let ip := sgn.2.takeWhile (·.isDigit)
  let cs3 := sgn.2.dropWhile (·.isDigit)
  let frac : List Char × List Char :=
    match cs3 with
    | '.' :: r => (r.takeWhile (·.isDigit), r.dropWhile (·.isDigit))
    | r => ([], r)
  let hadDot : Bool := match cs3 with | '.' :: _ => true | _ => false
  if ip.length + (if hadDot then frac.1.length else 0) = 0 then Option.none
  else
    let mantissa : ℚ := (digitsVal ip : ℚ) + (digitsVal frac.1 : ℚ) / (10 : ℚ) ^ frac.1.length
    match frac.2 with
    | [] => some (roundDouble (sgn.1 * mantissa))
    | 'e' :: r | 'E' :: r =>
      let esgn : Bool × List Char :=
        match r with
        | '-' :: r2 => (true, r2)
        | '+' :: r2 => (false, r2)
        | r2 => (false, r2)
      let eds := esgn.2.takeWhile (·.isDigit)
      if eds.isEmpty ∨ ¬(esgn.2.dropWhile (·.isDigit)).isEmpty then Option.none
      else
        let ex : ℤ := if esgn.1 then -(digitsVal eds : ℤ) else (digitsVal eds : ℤ)
        some (roundDouble (sgn.1 * mantissa * (10 : ℚ) ^ ex))
    | _ => Option.none

/-- Python `float(...)` on a `String`. -/
def pyFloat (s : String) : Option ℚ := pyFloatChars s.data

/-! ### The remaining handlers -/

/-- `_handle_wait`: `duration = float(duration_str.replace("seconds", "").strip())`,
defaulting to 1.0 on `ValueError`; a non-string duration has no `.replace` and
raises `AttributeError` (which `execute` then catches). -/
def handle_wait (a : ActionDict) (_w _h : ℤ) : Eff ActionResult :=
  match dictGetD a "duration" (.str "1 seconds") with
  | .str s =>
    let cleaned := pyStripChars (replaceAll "seconds".data [] s.data)
    let duration : ℚ :=
      match pyFloatChars cleaned with
      | some q => q
      | Option.none => 1
    Eff.seq (sleepEff duration) fun _ => Eff.pure okResult
  | v => Eff.raise ("'" ++ v.typeName ++ "' object has no attribute 'replace'")

/-- `_handle_takeover`. -/
def handle_takeover (a : ActionDict) (_w _h : ℤ) : Eff ActionResult :=
  let message := dictGetD a "message" (.str "User intervention required")
  Eff.seq (callTakeover message) fun _ => Eff.pure okResult

/-- `_handle_note` (placeholder, no device effect). -/
def handle_note (_a : ActionDict) (_w _h : ℤ) : Eff ActionResult := Eff.pure okResult

/-- `_handle_call_api` (placeholder, no device effect). -/
def handle_call_api (_a : ActionDict) (_w _h : ℤ) : Eff ActionResult := Eff.pure okResult

/-- `_handle_interact`. -/
def handle_interact (_a : ActionDict) (_w _h : ℤ) : Eff ActionResult :=
  Eff.pure ⟨true, false, some (.str "User interaction required"), false⟩

/-- `_get_handler` on a string action name: the lookup in the `handlers`
dictionary literal. -/
def get_handler_str (s : String) : Option (ActionDict → ℤ → ℤ → Eff ActionResult) :=
  if s = "Launch" then some handle_launch
  else if s = "Tap" then some handle_tap
  else if s = "Type" then some handle_type
  else if s = "Type_Name" then some handle_type
  else if s = "Swipe" then some handle_swipe
  else if s = "Back" then some handle_back
  else if s = "Home" then some handle_home
  else if s = "Double Tap" then some handle_double_tap
  else if s = "Long Press" then some handle_long_press
  else if s = "Wait" then some handle_wait
  else if s = "Take_over" then some handle_takeover
  else if s = "Note" then some handle_note
  else if s = "Call_API" then some handle_call_api
  else if s = "Interact" then some handle_interact
  else Option.none

/-- `_get_handler`: the dispatch table lookup `handlers.get(action_name)`. A
missing `action` key is Python `None`, and a hashable non-string value matches
no string key — both return `None`. But a list value — the only unhashable
literal in the modelled fragment — makes `dict.get` raise
`TypeError: unhashable type: 'list'`; this lookup runs outside `execute`'s
`try`, so that exception escapes `execute`. -/
def get_handler : Option LitValue →
    Except String (Option (ActionDict → ℤ → ℤ → Eff ActionResult))
  | some (.str s) => Except.ok (get_handler_str s)
  | some (.list _) => Except.error "unhashable type: 'list'"
  | _ => Except.ok Option.none

/-- `ActionHandler.execute`: dispatch on the `_metadata` discriminator, then
look up the handler by action name — that lookup sits outside the `try`, so a
`TypeError` it raises escapes `execute`; only exceptions raised by the chosen
handler's call itself are caught and converted into a failure result carrying
the exception's message. -/
def execute (a : ActionDict) (screen_width screen_height : ℤ) : Eff ActionResult :=
  fun env tr =>
    let action_type := dictGet a "_metadata"
    if action_type = some (.str "finish") then
      (Except.ok ⟨true, true, dictGet a "message", false⟩, tr)
    else if action_type ≠ some (.str "do") then
      (Except.ok ⟨false, true, some (.str ("Unknown action type: " ++ pyStrOpt action_type)),
        false⟩, tr)
    else
      let action_name := dictGet a "action"
      match get_handler action_name with
      | Except.error e => (Except.error e, tr)
      | Except.ok Option.none =>
        (Except.ok ⟨false, false, some (.str ("Unknown action: " ++ pyStrOpt action_name)),
          false⟩, tr)
      | Except.ok (some handler) =>
        match handler a screen_width screen_height env tr with
        | (Except.ok r, tr2) => (Except.ok r, tr2)
        | (Except.error e, tr2) =>
          (Except.ok ⟨false, false, some (.str ("Action failed: " ++ e)), false⟩, tr2)

/-! ### The instruction parser (`parse_action`)

The generic `do(...)` branch of the source parses the instruction as a Python
expression, insists on a single call expression, and evaluates each keyword
argument with `ast.literal_eval`. The modelled grammar is the fragment the
action protocol uses: a (possibly dotted) function name applied to literal
positional arguments (extracted and then ignored, as `call.keywords` ignores
them) and literal keyword arguments — numbers, quoted strings without escape
sequences, flat lists of scalars, `True`/`False`/`None`. Anything outside this
fragment fails, as arbitrary (non-literal) expressions fail `literal_eval` in
the source. -/

/-- Skip Python whitespace. -/
def skipWs (cs : List Char) : List Char := cs.dropWhile isPySpace

/-- A character that may continue an identifier. -/
def identChar (c : Char) : Bool := c.isAlphanum || c = '_'

/-- Parse an identifier. -/
def parseIdent (cs : List Char) : Except String (String × List Char) :=
  match cs with
  | c :: rest =>
    if c.isAlpha || c = '_' then
      Except.ok (String.mk (c :: rest.takeWhile identChar), rest.dropWhile identChar)
    else Except.error "invalid syntax"
  | [] => Except.error "invalid syntax"

/-- Parse a (possibly dotted) function name. -/
def parseFuncName (cs : List Char) : Except String (List Char) :=
  match cs with
  | c :: _ =>
    if c.isAlpha || c = '_' then
      Except.ok (cs.dropWhile (fun d => identChar d || d = '.'))
    else Except.error "invalid syntax"
  | [] => Except.error "invalid syntax"

/-- Parse a number literal (optional sign, digits, optional fraction and
exponent): an `int` when it has neither dot nor exponent, otherwise a `float`
rounded to binary64. -/
def parseNumber (cs : List Char) : Except String (LitAtom × List Char) :=
  let sgn : Bool × List Char :=
    match cs with
    | '-' :: r => (true, r)
    | '+' :: r => (false, r)
    | r => (false, r)
  let ip := sgn.2.takeWhile (·.isDigit)
  let cs2 := sgn.2.dropWhile (·.isDigit)
  let frac : List Char × List Char :=
    match cs2 with
    | '.' :: r => (r.takeWhile (·.isDigit), r.dropWhile (·.isDigit))
    | r => ([], r)
  let hadDot : Bool := match cs2 with | '.' :: _ => true | _ => false
  if ip.length + (if hadDot then frac.1.length else 0) = 0 then
    Except.error "invalid syntax"
  else
    let mag : ℚ := (digitsVal ip : ℚ) + (digitsVal frac.1 : ℚ) / (10 : ℚ) ^ frac.1.length
    let sq : ℚ := if sgn.1 then -mag else mag
    match frac.2 with
    | 'e' :: r | 'E' :: r =>
      let esgn : Bool × List Char :=
        match r with
        | '-' :: r2 => (true, r2)
        | '+' :: r2 => (false, r2)
        | r2 => (false, r2)
      let eds := esgn.2.takeWhile (·.isDigit)
      if eds.isEmpty then Except.error "invalid syntax"
      else
        let ex : ℤ := if esgn.1 then -(digitsVal eds : ℤ) else (digitsVal eds : ℤ)
        Except.ok (.float (roundDouble (sq * (10 : ℚ) ^ ex)), esgn.2.dropWhile (·.isDigit))
    | rest =>
      if hadDot then Except.ok (.float (roundDouble sq), rest)
      else Except.ok (.int (if sgn.1 then -(digitsVal ip : ℤ) else (digitsVal ip : ℤ)), rest)

/-- Parse a scalar literal: a quoted string (no escape sequences), a number, or
`True`/`False`/`None`. -/
def parseAtom (cs : List Char) : Except String (LitAtom × List Char) :=
  match cs with
  | '"' :: r =>
    let body := r.takeWhile (· ≠ '"')
    (match r.dropWhile (· ≠ '"') with
     | '"' :: rest => Except.ok (.str (String.mk body), rest)
     | _ => Except.error "unterminated string literal")
  | '\'' :: r =>
    let body := r.takeWhile (· ≠ '\'')
    (match r.dropWhile (· ≠ '\'') with
     | '\'' :: rest => Except.ok (.str (String.mk body), rest)
     | _ => Except.error "unterminated string literal")
  | c :: _ =>
    if c.isAlpha || c = '_' then
      match parseIdent cs with
      | Except.ok (name, rest) =>
        if name = "True" then Except.ok (.bool true, rest)
        else if name = "False" then Except.ok (.bool false, rest)
        else if name = "None" then Except.ok (.none, rest)
        else Except.error ("malformed node or string: " ++ name)
      | Except.error e => Except.error e
    else parseNumber cs
  | [] => Except.error "invalid syntax"

/-- Parse the items of a list literal after the opening bracket (fuel-driven). -/
def parseListItems : Nat → List Char → Except String (List LitAtom × List Char)
  | 0, _ => Except.error "invalid syntax"
  | f + 1, cs =>
    match skipWs cs with
    | ']' :: rest => Except.ok ([], rest)
    | cs2 =>
      match parseAtom cs2 with
      | Except.error e => Except.error e
      | Except.ok (v, cs3) =>
        match skipWs cs3 with
        | ',' :: cs4 =>
          (match parseListItems f cs4 with
           | Except.ok (vs, rest) => Except.ok (v :: vs, rest)
           | Except.error e => Except.error e)
        | ']' :: rest => Except.ok ([v], rest)
        | _ => Except.error "invalid syntax"

/-- Parse a literal value: a flat list of scalars, or a scalar. -/
def parseValue (cs : List Char) : Except String (LitValue × List Char) :=
  match cs with
  | '[' :: r =>
    (match parseListItems (r.length + 1) r with
     | Except.ok (vs, rest) => Except.ok (.list vs, rest)
     | Except.error e => Except.error e)
  | _ =>
    match parseAtom cs with
    | Except.ok (v, rest) =>
      Except.ok
        (match v with
         | .int n => .int n
         | .float q => .float q
         | .str s => .str s
         | .bool b => .bool b
         | .none => .none, rest)
    | Except.error e => Except.error e

/-- Parse the argument list of the call after the opening parenthesis
(fuel-driven). Positional literal arguments are accepted and dropped — the
source iterates `call.keywords` only — but, as in Python, none may follow a
keyword argument. Returns the keyword arguments in order. -/
def parseArgs : Nat → Bool → List Char → Except String (List (String × LitValue) × List Char)
  | 0, _, _ => Except.error "invalid syntax"
  | f + 1, sawKw, cs =>
    match skipWs cs with
    | ')' :: rest => Except.ok ([], rest)
    | cs2 =>
      let kwAttempt : Option (String × List Char) :=
        match parseIdent cs2 with
        | Except.ok (name, r) =>
          (match skipWs r with
           | '=' :: r2 => some (name, r2)
           | _ => Option.none)
        | Except.error _ => Option.none
      match kwAttempt with
      | some (key, r2) =>
        (match parseValue (skipWs r2) with
         | Except.error e => Except.error e
         | Except.ok (v, cs3) =>
           match skipWs cs3 with
           | ',' :: cs4 =>
             (match parseArgs f true cs4 with
              | Except.ok (kws, rest) => Except.ok ((key, v) :: kws, rest)
              | Except.error e => Except.error e)
           | ')' :: rest => Except.ok ([(key, v)], rest)
           | _ => Except.error "invalid syntax")
      | Option.none =>
        if sawKw then Except.error "positional argument follows keyword argument"
        else
          match parseValue cs2 with
          | Except.error e => Except.error e
          | Except.ok (_, cs3) =>
            match skipWs cs3 with
            | ',' :: cs4 => parseArgs f false cs4
            | ')' :: rest => Except.ok ([], rest)
            | _ => Except.error "invalid syntax"

/-- The first keyword name that repeats, if any (a `SyntaxError` in Python). -/
def findDup : List String → Option String
  | [] => Option.none
  | k :: rest => if rest.contains k then some k else findDup rest

/-- Parse the whole instruction as a single call expression and return its
keyword arguments (`ast.parse` + the `ast.Call` check + `ast.literal_eval`
on each keyword value). -/
def parseDoCall (cs : List Char) : Except String (List (String × LitValue)) :=
  match parseFuncName (skipWs cs) with
  | Except.error e => Except.error e
  | Except.ok afterName =>
    match skipWs afterName with
    | '(' :: r =>
      (match parseArgs (r.length + 1) false r with
       | Except.error e => Except.error e
       | Except.ok (kws, rest) =>
         if ¬(skipWs rest).isEmpty then Except.error "invalid syntax"
         else
           match findDup (kws.map Prod.fst) with
           | some k => Except.error ("keyword argument repeated: " ++ k)
           | Option.none => Except.ok kws)
    | _ => Except.error "Expected a function call"

/-- `action = {"_metadata": "do"}` followed by `action[key] = value` for each
keyword argument. -/
def build_dict (kws : List (String × LitValue)) : ActionDict :=
  kws.foldl (fun a kv => dictSet a kv.1 kv.2) [("_metadata", .str "do")]

/-- The special-cased instruction heads `do(action="Type"` / `do(action="Type_Name"`. -/
def typeLead1 : List Char := "do(action=\"Type\"".data

/-- See `typeLead1`. -/
def typeLead2 : List Char := "do(action=\"Type_Name\"".data

/-- The body of `parse_action` inside its outer `try`: the `Type`/`Type_Name`
special case (positional `text=` extraction), the generic `do` branch, the
`finish` branch, and the failing fallthrough. -/
def parse_action_inner (r : List Char) : Except String ActionDict :=
  if leadsWith typeLead1 r || leadsWith typeLead2 r then
    match splitAfterFirst "text=".data r with
    | Option.none => Except.error "list index out of range"
    | some rest =>
      Except.ok [("_metadata", .str "do"), ("action", .str "Type"),
        ("text", .str (String.mk (slice1m2 rest)))]
  else if leadsWith "do".data r then
    match parseDoCall r with
    | Except.ok kws => Except.ok (build_dict kws)
    | Except.error e => Except.error ("Failed to parse do() action: " ++ e)
  else if leadsWith "finish".data r then
    Except.ok [("_metadata", .str "finish"),
      ("message", .str (String.mk (slice1m2 (replaceAll "finish(message=".data [] r))))]
  else Except.error ("Failed to parse action: " ++ String.mk r)

/-- `parse_action(response)`: strip, dispatch on the instruction head, and
re-wrap any failure as `ValueError(f"Failed to parse action: {e}")`. -/
def parse_action (response : String) : Except String ActionDict :=
  match parse_action_inner (pyStripChars response.data) with
  | Except.ok a => Except.ok a
  | Except.error e => Except.error ("Failed to parse action: " ++ e)

/-! ### The timing configuration (`timing.py`) -/

/-- `float(os.getenv(name, default))`: the default (already a float) when the
variable is unset, otherwise `float(...)` of the string — which raises
`ValueError` on an unparsable value. -/
def envFloat (getenv : String → Option String) (name : String) (d : ℚ) : Except String ℚ :=
  match getenv name with
  | Option.none => Except.ok d
  | some s =>
    match pyFloat s with
    | some q => Except.ok q
    | Option.none => Except.error ("could not convert string to float: '" ++ s ++ "'")

/-- `ActionTimingConfig.__post_init__`: overwrite each field from its
environment variable. Any unparsable override raises out of the constructor. -/
def action_timing_post_init (getenv : String → Option String) (c : ActionTimingConfig) :
    Except String ActionTimingConfig :=
  match envFloat getenv "PHONE_AGENT_KEYBOARD_SWITCH_DELAY" c.keyboard_switch_delay with
  | Except.error e => Except.error e
  | Except.ok k =>
    match envFloat getenv "PHONE_AGENT_TEXT_CLEAR_DELAY" c.text_clear_delay with
    | Except.error e => Except.error e
    | Except.ok tc =>
      match envFloat getenv "PHONE_AGENT_TEXT_INPUT_DELAY" c.text_input_delay with
      | Except.error e => Except.error e
      | Except.ok ti =>
        match envFloat getenv "PHONE_AGENT_KEYBOARD_RESTORE_DELAY" c.keyboard_restore_delay with
        | Except.error e => Except.error e
        | Except.ok kr => Except.ok ⟨k, tc, ti, kr⟩

/-! ### Concrete collaborators used to instantiate the theorems -/

/-- A fault-free environment whose confirmation callback declines everything. -/
def envDecline : Env :=
  ⟨defaultActionTiming, fun _ => false, fun _ => true, "com.example.ime", fun _ => Option.none⟩

/-- A fault-free environment whose confirmation callback accepts everything. -/
def envAccept : Env :=
  ⟨defaultActionTiming, fun _ => true, fun _ => true, "com.example.ime", fun _ => Option.none⟩

/-- An environment in which every `tap` raises `"device offline"`. -/
def envTapFault : Env :=
  ⟨defaultActionTiming, fun _ => true, fun _ => true, "com.example.ime",
   fun op => match op with
     | DeviceOp.tap _ _ => some "device offline"
     | _ => Option.none⟩

/-- The fourteen action names recognized by `_get_handler`. -/
def actionNames : List String :=
  ["Launch", "Tap", "Type", "Type_Name", "Swipe", "Back", "Home", "Double Tap",
   "Long Press", "Wait", "Take_over", "Note", "Call_API", "Interact"]

/-! ### Helper lemmas -/

/-- Every successful result of a computation satisfies
`requires_confirmation = false`. -/
def ResultRCFalse (m : Eff ActionResult) : Prop :=
  ∀ env tr r tr2, m env tr = (Except.ok r, tr2) → r.requires_confirmation = false

theorem rc_pure {r : ActionResult} (h : r.requires_confirmation = false) :
    ResultRCFalse (Eff.pure r) := by
  intro env tr r2 tr2 hh
  unfold Eff.pure at hh
  rw [Prod.mk.injEq] at hh
  obtain ⟨h1, -⟩ := hh
  injection h1 with h1
  rw [← h1]
  exact h

theorem rc_raise {e : String} : ResultRCFalse (Eff.raise e) := by
  intro env tr r2 tr2 hh
  unfold Eff.raise at hh
  rw [Prod.mk.injEq] at hh
  exact absurd hh.1 (by simp)

theorem rc_seq {α : Type} {m : Eff α} {k : α → Eff ActionResult}
    (hk : ∀ x, ResultRCFalse (k x)) : ResultRCFalse (Eff.seq m k) := by
  intro env tr r tr2 hh
  unfold Eff.seq at hh
  rcases hm : m env tr with ⟨fst, tr1⟩
  rw [hm] at hh
  cases fst with
  | ok a => exact hk a env tr1 r tr2 hh
  | error e =>
    rw [Prod.mk.injEq] at hh
    exact absurd hh.1 (by simp)

theorem rc_launch (a : ActionDict) (w h : ℤ) : ResultRCFalse (handle_launch a w h) := by
  unfold handle_launch
  repeat first
    | exact rc_raise
    | exact rc_pure rfl
    | refine rc_seq fun _ => ?_
    | dsimp only
    | split

theorem rc_tap (a : ActionDict) (w h : ℤ) : ResultRCFalse (handle_tap a w h) := by
  unfold handle_tap
  repeat first
    | exact rc_raise
    | exact rc_pure rfl
    | refine rc_seq fun _ => ?_
    | dsimp only
    | split

theorem rc_type (a : ActionDict) (w h : ℤ) : ResultRCFalse (handle_type a w h) := by
  unfold handle_type
  repeat first
    | exact rc_raise
    | exact rc_pure rfl
    | refine rc_seq fun _ => ?_
    | dsimp only
    | split

theorem rc_swipe (a : ActionDict) (w h : ℤ) : ResultRCFalse (handle_swipe a w h) := by
  unfold handle_swipe
  repeat first
    | exact rc_raise
    | exact rc_pure rfl
    | refine rc_seq fun _ => ?_
    | dsimp only
    | split

theorem rc_back (a : ActionDict) (w h : ℤ) : ResultRCFalse (handle_back a w h) := by
  unfold handle_back
  exact rc_seq fun _ => rc_pure rfl

theorem rc_home (a : ActionDict) (w h : ℤ) : ResultRCFalse (handle_home a w h) := by
  unfold handle_home
  exact rc_seq fun _ => rc_pure rfl

theorem rc_double_tap (a : ActionDict) (w h : ℤ) : ResultRCFalse (handle_double_tap a w h) := by
  unfold handle_double_tap
  repeat first
    | exact rc_raise
    | exact rc_pure rfl
    | refine rc_seq fun _ => ?_
    | dsimp only
    | split

theorem rc_long_press (a : ActionDict) (w h : ℤ) : ResultRCFalse (handle_long_press a w h) := by
  unfold handle_long_press
  repeat first
    | exact rc_raise
    | exact rc_pure rfl
    | refine rc_seq fun _ => ?_
    | dsimp only
    | split

theorem rc_wait (a : ActionDict) (w h : ℤ) : ResultRCFalse (handle_wait a w h) := by
  cases hdv : dictGetD a "duration" (LitValue.str "1 seconds") with
  | str s =>
    simp only [handle_wait, hdv]
    exact rc_seq fun _ => rc_pure rfl
  | int n => simp only [handle_wait, hdv]; exact rc_raise
  | float q => simp only [handle_wait, hdv]; exact rc_raise
  | list xs => simp only [handle_wait, hdv]; exact rc_raise
  | bool b => simp only [handle_wait, hdv]; exact rc_raise
  | none => simp only [handle_wait, hdv]; exact rc_raise

theorem rc_takeover (a : ActionDict) (w h : ℤ) : ResultRCFalse (handle_takeover a w h) := by
  unfold handle_takeover
  exact rc_seq fun _ => rc_pure rfl

theorem rc_note (a : ActionDict) (w h : ℤ) : ResultRCFalse (handle_note a w h) :=
  rc_pure rfl

theorem rc_call_api (a : ActionDict) (w h : ℤ) : ResultRCFalse (handle_call_api a w h) :=
  rc_pure rfl

theorem rc_interact (a : ActionDict) (w h : ℤ) : ResultRCFalse (handle_interact a w h) :=
  rc_pure rfl

/-- Every handler in the dispatch table keeps `requires_confirmation = false`. -/
theorem rc_handler {n : Option LitValue} {hd : ActionDict → ℤ → ℤ → Eff ActionResult}
    (h : get_handler n = Except.ok (some hd)) (a : ActionDict) (w hgt : ℤ) :
    ResultRCFalse (hd a w hgt) := by
  rcases n with - | v
  · injection h with hq; exact Option.noConfusion hq
  cases v with
  | str s =>
    unfold get_handler get_handler_str at h
    dsimp only at h
    rcases eq_or_ne s "Launch" with he1 | he1
    · rw [if_pos he1] at h; injection h with hq; injection hq with hq
      rw [← hq]; exact rc_launch a w hgt
    rw [if_neg he1] at h
    rcases eq_or_ne s "Tap" with he2 | he2
    · rw [if_pos he2] at h; injection h with hq; injection hq with hq
      rw [← hq]; exact rc_tap a w hgt
    rw [if_neg he2] at h
    rcases eq_or_ne s "Type" with he3 | he3
    · rw [if_pos he3] at h; injection h with hq; injection hq with hq
      rw [← hq]; exact rc_type a w hgt
    rw [if_neg he3] at h
    rcases eq_or_ne s "Type_Name" with he4 | he4
    · rw [if_pos he4] at h; injection h with hq; injection hq with hq
      rw [← hq]; exact rc_type a w hgt
    rw [if_neg he4] at h
    rcases eq_or_ne s "Swipe" with he5 | he5
    · rw [if_pos he5] at h; injection h with hq; injection hq with hq
      rw [← hq]; exact rc_swipe a w hgt
    rw [if_neg he5] at h
    rcases eq_or_ne s "Back" with he6 | he6
    · rw [if_pos he6] at h; injection h with hq; injection hq with hq
      rw [← hq]; exact rc_back a w hgt
    rw [if_neg he6] at h
    rcases eq_or_ne s "Home" with he7 | he7
    · rw [if_pos he7] at h; injection h with hq; injection hq with hq
      rw [← hq]; exact rc_home a w hgt
    rw [if_neg he7] at h
    rcases eq_or_ne s "Double Tap" with he8 | he8
    · rw [if_pos he8] at h; injection h with hq; injection hq with hq
      rw [← hq]; exact rc_double_tap a w hgt
    rw [if_neg he8] at h
    rcases eq_or_ne s "Long Press" with he9 | he9
    · rw [if_pos he9] at h; injection h with hq; injection hq with hq
      rw [← hq]; exact rc_long_press a w hgt
    rw [if_neg he9] at h
    rcases eq_or_ne s "Wait" with he10 | he10
    · rw [if_pos he10] at h; injection h with hq; injection hq with hq
      rw [← hq]; exact rc_wait a w hgt
    rw [if_neg he10] at h
    rcases eq_or_ne s "Take_over" with he11 | he11
    · rw [if_pos he11] at h; injection h with hq; injection hq with hq
      rw [← hq]; exact rc_takeover a w hgt
    rw [if_neg he11] at h
    rcases eq_or_ne s "Note" with he12 | he12
    · rw [if_pos he12] at h; injection h with hq; injection hq with hq
      rw [← hq]; exact rc_note a w hgt
    rw [if_neg he12] at h
    rcases eq_or_ne s "Call_API" with he13 | he13
    · rw [if_pos he13] at h; injection h with hq; injection hq with hq
      rw [← hq]; exact rc_call_api a w hgt
    rw [if_neg he13] at h
    rcases eq_or_ne s "Interact" with he14 | he14
    · rw [if_pos he14] at h; injection h with hq; injection hq with hq
      rw [← hq]; exact rc_interact a w hgt
    rw [if_neg he14] at h
    injection h with hq; exact Option.noConfusion hq
  | int n => injection h with hq; exact Option.noConfusion hq
  | float q => injection h with hq; exact Option.noConfusion hq
  | list xs => exact Except.noConfusion h
  | bool b => injection h with hq; exact Option.noConfusion hq
  | none => injection h with hq; exact Option.noConfusion hq

/-- From a successful-pair equation, transfer `requires_confirmation`. -/
theorem rc_of_pair_eq {R r : ActionResult} {T tr2 : List DeviceOp}
    (hex : ((Except.ok R : Except String ActionResult), T) = (Except.ok r, tr2))
    (hR : R.requires_confirmation = false) : r.requires_confirmation = false := by
  rw [Prod.mk.injEq] at hex
  obtain ⟨hx, -⟩ := hex
  injection hx with hx
  rw [← hx]
  exact hR

/-! ### Claim theorems -/

/-- Claim C10 (confirmed): every `ActionResult` returned by `execute`, for every
command, screen size, collaborator behavior and prior trace, has
`requires_confirmation = false`: no code path of the dispatcher ever sets the
declared `requires_confirmation` field to true. -/
theorem execute_requires_confirmation_false
    (a : ActionDict) (w h : ℤ) (env : Env) (tr : List DeviceOp)
    (r : ActionResult) (tr2 : List DeviceOp)
    (hex : execute a w h env tr = (Except.ok r, tr2)) :
    r.requires_confirmation = false := by
  unfold execute at hex
  dsimp only at hex
  by_cases h1 : dictGet a "_metadata" = some (LitValue.str "finish")
  · rw [if_pos h1] at hex
    exact rc_of_pair_eq hex rfl
  rw [if_neg h1] at hex
  by_cases h2 : dictGet a "_metadata" = some (LitValue.str "do")
  · rw [if_neg (not_not_intro h2)] at hex
    rcases hg : get_handler (dictGet a "action") with e | ohd
    · rw [hg] at hex
      dsimp only at hex
      rw [Prod.mk.injEq] at hex
      exact absurd hex.1 (by simp)
    · rw [hg] at hex
      cases ohd with
      | none =>
        dsimp only at hex
        exact rc_of_pair_eq hex rfl
      | some hd =>
        dsimp only at hex
        rcases hr : hd a w h env tr with ⟨res, tr1⟩
        rw [hr] at hex
        cases res with
        | ok r2 =>
          dsimp only at hex
          have := rc_handler hg a w h env tr r2 tr1 hr
          rw [Prod.mk.injEq] at hex
          obtain ⟨hx, -⟩ := hex
          injection hx with hx
          rw [← hx]
          exact this
        | error e2 =>
          dsimp only at hex
          exact rc_of_pair_eq hex rfl
  · rw [if_pos h2] at hex
    exact rc_of_pair_eq hex rfl

/-- Closed instance of C10: a concrete successful execution carries
`requires_confirmation = false`. -/
theorem execute_requires_confirmation_false_witness :
    okResult.requires_confirmation = false :=
  execute_requires_confirmation_false
    [("_metadata", .str "do"), ("action", .str "Back")] 1080 1920 envAccept []
    okResult [DeviceOp.back] (by decide)

/-- `handlers.get` raises only on an unhashable action value, i.e. a list. -/
theorem get_handler_error {n : Option LitValue} {e : String}
    (h : get_handler n = Except.error e) : ∃ xs, n = some (.list xs) := by
  rcases n with - | v
  · exact Except.noConfusion h
  cases v with
  | str s => exact Except.noConfusion h
  | int n => exact Except.noConfusion h
  | float q => exact Except.noConfusion h
  | list xs => exact ⟨xs, rfl⟩
  | bool b => exact Except.noConfusion h
  | none => exact Except.noConfusion h

/-- Claim C2 (corrected): whenever the dispatched handler raises, `execute`
catches the exception and returns `success = false, should_finish = false` with
a message carrying the underlying exception's message; and `execute` returns a
result for every dictionary-shaped command — except that the handler lookup
`handlers.get(action_name)` sits outside the `try`, so a `do` command whose
`action` value is a list (unhashable) raises `TypeError` out of `execute`. -/
theorem execute_catches_exceptions
    (a : ActionDict) (w h : ℤ) (env : Env) (tr : List DeviceOp) :
    ((∀ xs, ¬(dictGet a "_metadata" = some (.str "do") ∧
        dictGet a "action" = some (.list xs))) →
      ∃ r tr2, execute a w h env tr = (Except.ok r, tr2)) ∧
    (∀ xs, dictGet a "_metadata" = some (.str "do") →
      dictGet a "action" = some (.list xs) →
      execute a w h env tr = (Except.error "unhashable type: 'list'", tr)) ∧
    (∀ (hd : ActionDict → ℤ → ℤ → Eff ActionResult) (e : String) (tr2 : List DeviceOp),
      dictGet a "_metadata" = some (.str "do") →
      get_handler (dictGet a "action") = Except.ok (some hd) →
      hd a w h env tr = (Except.error e, tr2) →
      execute a w h env tr =
        (Except.ok ⟨false, false, some (.str ("Action failed: " ++ e)), false⟩, tr2)) := by
  refine ⟨?_, ?_, ?_⟩
  · intro hnotlist
    unfold execute
    dsimp only
    by_cases h1 : dictGet a "_metadata" = some (LitValue.str "finish")
    · rw [if_pos h1]
      exact ⟨_, _, rfl⟩
    rw [if_neg h1]
    by_cases h2 : dictGet a "_metadata" = some (LitValue.str "do")
    · rw [if_neg (not_not_intro h2)]
      rcases hg : get_handler (dictGet a "action") with e | ohd
      · obtain ⟨xs, hxs⟩ := get_handler_error hg
        exact absurd ⟨h2, hxs⟩ (hnotlist xs)
      · cases ohd with
        | none => exact ⟨_, _, rfl⟩
        | some hd =>
          dsimp only
          rcases hr : hd a w h env tr with ⟨res, tr1⟩
          cases res with
          | ok r2 => exact ⟨_, _, rfl⟩
          | error e => exact ⟨_, _, rfl⟩
    · rw [if_pos h2]
      exact ⟨_, _, rfl⟩
  · intro xs hmd hlist
    unfold execute
    dsimp only
    rw [hmd]
    rw [if_neg (by simp)]
    rw [if_neg (not_not_intro rfl)]
    rw [hlist]
    rfl
  · intro hd e tr2 hmd hgh hrun
    unfold execute
    dsimp only
    rw [hmd]
    rw [if_neg (by simp)]
    rw [if_neg (not_not_intro rfl)]
    rw [hgh]
    dsimp only
    rw [hrun]

/-- Claim C2 counterexample: a `do` command whose `action` value is the list
`[1]` — producible by `parse_action` itself from `do(action=[1])` — makes the
handler lookup raise `TypeError: unhashable type: 'list'`, which escapes
`execute` instead of being converted into a failure result. -/
theorem execute_unhashable_action_escapes :
    execute [("_metadata", .str "do"), ("action", .list [.int 1])] 1080 1920 envAccept [] =
      (Except.error "unhashable type: 'list'", []) ∧
    parse_action "do(action=[1])" =
      Except.ok [("_metadata", .str "do"), ("action", .list [.int 1])] := by
  refine ⟨by decide, by decide⟩

/-- Closed instance of C2: a non-list action command yields a returned result;
a list-valued action escapes; and a `Tap` whose device call raises
`"device offline"` is converted into a failure result carrying that message. -/
theorem execute_catches_exceptions_witness :
    (∃ r tr2,
      execute [("_metadata", .str "do"), ("action", .str "Tap"),
        ("element", .list [.int 500, .int 500])] 1080 1920 envTapFault [] =
        (Except.ok r, tr2)) ∧
    execute [("_metadata", .str "do"), ("action", .list [])] 1080 1920 envTapFault [] =
      (Except.error "unhashable type: 'list'", []) ∧
    execute [("_metadata", .str "do"), ("action", .str "Tap"),
        ("element", .list [.int 500, .int 500])] 1080 1920 envTapFault [] =
      (Except.ok ⟨false, false, some (.str "Action failed: device offline"), false⟩,
       [DeviceOp.tap 540 960]) := by
  have H := execute_catches_exceptions
    [("_metadata", .str "do"), ("action", .str "Tap"),
      ("element", .list [.int 500, .int 500])] 1080 1920 envTapFault []
  have H2 := execute_catches_exceptions
    [("_metadata", .str "do"), ("action", .list [])] 1080 1920 envTapFault []
  refine ⟨H.1 (fun xs hx => LitValue.noConfusion (Option.some.inj hx.2)), H2.2.1 [] rfl rfl, ?_⟩
  exact H.2.2 handle_tap "device offline" [DeviceOp.tap 540 960] rfl rfl (by decide)

/-- A name outside the fourteen recognized action names finds no handler. -/
theorem get_handler_str_notmem {s : String} (hs : s ∉ actionNames) :
    get_handler_str s = Option.none := by
  simp only [actionNames, List.mem_cons, List.mem_singleton, not_or] at hs
  obtain ⟨e1, e2, e3, e4, e5, e6, e7, e8, e9, e10, e11, e12, e13, e14, -⟩ := hs
  unfold get_handler_str
  rw [if_neg e1, if_neg e2, if_neg e3, if_neg e4, if_neg e5, if_neg e6, if_neg e7,
    if_neg e8, if_neg e9, if_neg e10, if_neg e11, if_neg e12, if_neg e13, if_neg e14]

/-- Claim C6 (confirmed): a command whose `_metadata` discriminator is neither
`"do"` nor `"finish"` (including a missing one, which is Python `None`) yields
`success = false, should_finish = true` with a descriptive message; a `do`
command whose action name is outside the fourteen recognized actions yields
`success = false, should_finish = false` with a message naming the unknown
action. -/
theorem execute_unknown_dispatch
    (a : ActionDict) (w h : ℤ) (env : Env) (tr : List DeviceOp) :
    (∀ v, dictGet a "_metadata" = some v → v ≠ .str "do" → v ≠ .str "finish" →
      ∃ m, execute a w h env tr = (Except.ok ⟨false, true, some m, false⟩, tr) ∧
        ∀ s, v = .str s → m = .str ("Unknown action type: " ++ s)) ∧
    (dictGet a "_metadata" = Option.none →
      execute a w h env tr =
        (Except.ok ⟨false, true, some (.str "Unknown action type: None"), false⟩, tr)) ∧
    (∀ s, dictGet a "_metadata" = some (.str "do") →
      dictGet a "action" = some (.str s) → s ∉ actionNames →
      execute a w h env tr =
        (Except.ok ⟨false, false, some (.str ("Unknown action: " ++ s)), false⟩, tr)) ∧
    actionNames.length = 14 := by
  refine ⟨?_, ?_, ?_, rfl⟩
  · intro v hv hvdo hvfin
    unfold execute
    dsimp only
    rw [hv]
    rw [if_neg (by simp only [Option.some.injEq]; exact hvfin)]
    rw [if_pos (by simp only [ne_eq, Option.some.injEq]; exact hvdo)]
    exact ⟨.str ("Unknown action type: " ++ pyStr v), rfl, fun s hs => by rw [hs]; rfl⟩
  · intro hv
    unfold execute
    dsimp only
    rw [hv]
    rw [if_neg (by simp)]
    rw [if_pos (by simp)]
    rfl
  · intro s hmd han hs
    unfold execute
    dsimp only
    rw [hmd]
    rw [if_neg (by simp)]
    rw [if_neg (not_not_intro rfl)]
    rw [han]
    have hg : get_handler (some (.str s)) = Except.ok Option.none := by
      show Except.ok (get_handler_str s) = Except.ok Option.none
      rw [get_handler_str_notmem hs]
    rw [hg]
    rfl

/-- Closed instance of C6: an unknown discriminator, a missing discriminator,
and an unknown action name, each dispatched as the claim describes. -/
theorem execute_unknown_dispatch_witness :
    (∃ m, execute [("_metadata", .str "bogus")] 1080 1920 envAccept [] =
      (Except.ok ⟨false, true, some m, false⟩, []) ∧
      ∀ s, LitValue.str "bogus" = .str s → m = .str ("Unknown action type: " ++ s)) ∧
    execute [] 1080 1920 envAccept [] =
      (Except.ok ⟨false, true, some (.str "Unknown action type: None"), false⟩, []) ∧
    execute [("_metadata", .str "do"), ("action", .str "Fly")] 1080 1920 envAccept [] =
      (Except.ok ⟨false, false, some (.str "Unknown action: Fly"), false⟩, []) := by
  refine ⟨?_, ?_, ?_⟩
  · exact (execute_unknown_dispatch [("_metadata", .str "bogus")] 1080 1920 envAccept []).1
      (.str "bogus") rfl (by decide) (by decide)
  · exact (execute_unknown_dispatch [] 1080 1920 envAccept []).2.1 rfl
  · exact (execute_unknown_dispatch [("_metadata", .str "do"), ("action", .str "Fly")]
      1080 1920 envAccept []).2.2.1 "Fly" rfl rfl (by decide)

/-- Under a fault-free device, `handle_type` performs exactly the eight-step
sequence: detect-and-switch keyboard, wait, clear, wait, type, wait, restore the
captured prior input method, wait. -/
theorem handle_type_run
    (a : ActionDict) (w h : ℤ) (env : Env) (tr : List DeviceOp)
    (hfault : ∀ op, env.fault op = Option.none)
    (h1 : 0 ≤ env.timing.keyboard_switch_delay)
    (h2 : 0 ≤ env.timing.text_clear_delay)
    (h3 : 0 ≤ env.timing.text_input_delay)
    (h4 : 0 ≤ env.timing.keyboard_restore_delay) :
    handle_type a w h env tr =
      (Except.ok okResult,
       tr ++ [DeviceOp.detect_and_set_adb_keyboard,
              DeviceOp.sleep env.timing.keyboard_switch_delay,
              DeviceOp.clear_text,
              DeviceOp.sleep env.timing.text_clear_delay,
              DeviceOp.type_text (dictGetD a "text" (.str "")),
              DeviceOp.sleep env.timing.text_input_delay,
              DeviceOp.restore_keyboard env.priorIme,
              DeviceOp.sleep env.timing.keyboard_restore_delay]) := by
  have n1 : ¬(env.timing.keyboard_switch_delay < 0) := not_lt.mpr h1
  have n2 : ¬(env.timing.text_clear_delay < 0) := not_lt.mpr h2
  have n3 : ¬(env.timing.text_input_delay < 0) := not_lt.mpr h3
  have n4 : ¬(env.timing.keyboard_restore_delay < 0) := not_lt.mpr h4
  simp [handle_type, Eff.seq, Eff.pure, detectKeyboard, sleepDelay, sleepEff, emit,
    hfault, n1, n2, n3, n4]

/-- Claim C7 (confirmed): for every `Type` or `Type_Name` command, under a
fault-free device and nonnegative configured delays, `execute` performs exactly
the sequence: switch input method (capturing the prior one), wait the
keyboard-switch delay, clear the field, wait the clear delay, inject the
command text, wait the input delay, restore the captured input method, wait the
restore delay; and returns `success = true, should_finish = false`. -/
theorem execute_type_sequence
    (a : ActionDict) (w h : ℤ) (env : Env) (tr : List DeviceOp)
    (hmd : dictGet a "_metadata" = some (.str "do"))
    (hact : dictGet a "action" = some (.str "Type") ∨
            dictGet a "action" = some (.str "Type_Name"))
    (hfault : ∀ op, env.fault op = Option.none)
    (h1 : 0 ≤ env.timing.keyboard_switch_delay)
    (h2 : 0 ≤ env.timing.text_clear_delay)
    (h3 : 0 ≤ env.timing.text_input_delay)
    (h4 : 0 ≤ env.timing.keyboard_restore_delay) :
    execute a w h env tr =
      (Except.ok okResult,
       tr ++ [DeviceOp.detect_and_set_adb_keyboard,
              DeviceOp.sleep env.timing.keyboard_switch_delay,
              DeviceOp.clear_text,
              DeviceOp.sleep env.timing.text_clear_delay,
              DeviceOp.type_text (dictGetD a "text" (.str "")),
              DeviceOp.sleep env.timing.text_input_delay,
              DeviceOp.restore_keyboard env.priorIme,
              DeviceOp.sleep env.timing.keyboard_restore_delay]) := by
  unfold execute
  dsimp only
  rw [hmd]
  rw [if_neg (by simp)]
  rw [if_neg (not_not_intro rfl)]
  have hrun := handle_type_run a w h env tr hfault h1 h2 h3 h4
  rcases hact with hact | hact
  · rw [hact]
    rw [show get_handler (some (.str "Type")) = Except.ok (some handle_type) from rfl]
    dsimp only
    rw [hrun]
  · rw [hact]
    rw [show get_handler (some (.str "Type_Name")) = Except.ok (some handle_type) from rfl]
    dsimp only
    rw [hrun]

/-- Closed instance of C7: a concrete `Type` command against a fault-free
device with the default delays. -/
theorem execute_type_sequence_witness :
    execute [("_metadata", .str "do"), ("action", .str "Type"), ("text", .str "hello")]
      1080 1920 envAccept [] =
      (Except.ok okResult,
       [DeviceOp.detect_and_set_adb_keyboard,
        DeviceOp.sleep 1,
        DeviceOp.clear_text,
        DeviceOp.sleep 1,
        DeviceOp.type_text (.str "hello"),
        DeviceOp.sleep 1,
        DeviceOp.restore_keyboard "com.example.ime",
        DeviceOp.sleep 1]) := by
  have H := execute_type_sequence
    [("_metadata", .str "do"), ("action", .str "Type"), ("text", .str "hello")]
    1080 1920 envAccept [] rfl (Or.inl rfl) (fun op => rfl)
    (by decide) (by decide) (by decide) (by decide)
  exact H

/-- Claim C1 (corrected), Tap part: for a `Tap` command with a well-formed
`element` point and a `message` key, `execute` invokes the confirmation
callback with that message before any gesture; if the callback declines, no
gesture is invoked and the result is
`success = false, should_finish = true, "User cancelled sensitive operation"`;
if it accepts, the tap follows the confirmation call. (`Double Tap` and
`Long Press` have no such gate — see the counterexample.) -/
theorem tap_confirmation_gate
    (a : ActionDict) (w h : ℤ) (env : Env) (tr : List DeviceOp) (ex ey : ℤ) (mv : LitValue)
    (hmd : dictGet a "_metadata" = some (.str "do"))
    (hact : dictGet a "action" = some (.str "Tap"))
    (hel : dictGet a "element" = some (.list [.int ex, .int ey]))
    (hmsg : dictGet a "message" = some mv)
    (hfc : env.fault (DeviceOp.confirm_call mv) = Option.none) :
    (env.confirm mv = false →
      execute a w h env tr =
        (Except.ok ⟨false, true, some (.str "User cancelled sensitive operation"), false⟩,
         tr ++ [DeviceOp.confirm_call mv])) ∧
    (env.confirm mv = true →
      env.fault (DeviceOp.tap (convertCoord (ex : ℚ) w) (convertCoord (ey : ℚ) h)) =
        Option.none →
      execute a w h env tr =
        (Except.ok okResult,
         tr ++ [DeviceOp.confirm_call mv,
                DeviceOp.tap (convertCoord (ex : ℚ) w) (convertCoord (ey : ℚ) h)])) := by
  have hexec : ∀ (r : ActionResult) (tr2 : List DeviceOp),
      handle_tap a w h env tr = (Except.ok r, tr2) →
      execute a w h env tr = (Except.ok r, tr2) := by
    intro r tr2 hr
    unfold execute
    dsimp only
    rw [hmd]
    rw [if_neg (by simp)]
    rw [if_neg (not_not_intro rfl)]
    rw [hact]
    rw [show get_handler (some (.str "Tap")) = Except.ok (some handle_tap) from rfl]
    dsimp only
    rw [hr]
  have hconv : convert_relative_to_absolute (LitValue.list [.int ex, .int ey]) w h =
      Except.ok (convertCoord (ex : ℚ) w, convertCoord (ey : ℚ) h) := rfl
  constructor
  · intro hcf
    refine hexec _ _ ?_
    unfold handle_tap
    rw [hel]
    rw [if_pos (show truthyOpt (some (LitValue.list [.int ex, .int ey])) = true from rfl)]
    simp only [Option.getD, Eff.seq, Eff.liftEx, hconv, hmsg, askConfirm, hfc, hcf, emit,
      Eff.pure, Bool.false_eq_true, if_false]
  · intro hcf hft
    refine hexec _ _ ?_
    unfold handle_tap
    rw [hel]
    rw [if_pos (show truthyOpt (some (LitValue.list [.int ex, .int ey])) = true from rfl)]
    simp only [Option.getD, Eff.seq, Eff.liftEx, hconv, hmsg, askConfirm, hfc, hcf, emit,
      Eff.pure, if_true, hft, List.append_assoc, List.singleton_append, List.cons_append,
      List.nil_append]

/-- Claim C1 counterexample: a `Double Tap` command carrying a non-empty
`element` and a `message` key, against a callback that declines everything,
never invokes the confirmation callback, performs the gesture anyway, and
returns success — contradicting the claim's `success = false,
should_finish = true` with no gesture. -/
theorem double_tap_ignores_message :
    execute [("_metadata", .str "do"), ("action", .str "Double Tap"),
        ("element", .list [.int 500, .int 500]), ("message", .str "Confirm the transfer?")]
      1000 1000 envDecline [] =
      (Except.ok okResult, [DeviceOp.double_tap 500 500]) := by
  decide

/-- Closed instance of the C1 Tap gate: the declining callback cancels a
sensitive `Tap` before any gesture. -/
theorem tap_confirmation_gate_witness :
    execute [("_metadata", .str "do"), ("action", .str "Tap"),
        ("element", .list [.int 500, .int 500]), ("message", .str "Pay now?")]
      1000 1000 envDecline [] =
      (Except.ok ⟨false, true, some (.str "User cancelled sensitive operation"), false⟩,
       [DeviceOp.confirm_call (.str "Pay now?")]) :=
  (tap_confirmation_gate
    [("_metadata", .str "do"), ("action", .str "Tap"),
      ("element", .list [.int 500, .int 500]), ("message", .str "Pay now?")]
    1000 1000 envDecline [] 500 500 (.str "Pay now?")
    rfl rfl rfl rfl rfl).1 rfl

/-- Claim C8 (corrected): for a `Wait` command whose `duration` value is a
string that does not parse — after deleting every occurrence of the unit word
`"seconds"` and trimming — as a float, the delay defaults to 1.0 seconds and
`execute` returns `success = true, should_finish = false`. (A non-string
duration raises inside the handler instead — see the counterexample.) -/
theorem wait_unparsable_duration_defaults
    (a : ActionDict) (w h : ℤ) (env : Env) (tr : List DeviceOp) (s : String)
    (hmd : dictGet a "_metadata" = some (.str "do"))
    (hact : dictGet a "action" = some (.str "Wait"))
    (hdur : dictGetD a "duration" (.str "1 seconds") = .str s)
    (hparse : pyFloatChars (pyStripChars (replaceAll "seconds".data [] s.data)) =
      Option.none) :
    execute a w h env tr = (Except.ok okResult, tr ++ [DeviceOp.sleep 1]) := by
  have hexec : ∀ (r : ActionResult) (tr2 : List DeviceOp),
      handle_wait a w h env tr = (Except.ok r, tr2) →
      execute a w h env tr = (Except.ok r, tr2) := by
    intro r tr2 hr
    unfold execute
    dsimp only
    rw [hmd]
    rw [if_neg (by simp)]
    rw [if_neg (not_not_intro rfl)]
    rw [hact]
    rw [show get_handler (some (.str "Wait")) = Except.ok (some handle_wait) from rfl]
    dsimp only
    rw [hr]
  refine hexec _ _ ?_
  simp only [handle_wait, hdur, hparse, Eff.seq, Eff.pure, sleepEff]
  rw [if_neg (by norm_num)]

/-- Claim C8 counterexample: a `Wait` whose `duration` is the integer literal
`3` (not a string) fails the action: the handler's `.replace` call raises
`AttributeError`, which `execute` reports as `success = false` — contradicting
"a malformed wait never fails the action" with the claimed `success = true`. -/
theorem wait_nonstring_duration_fails :
    execute [("_metadata", .str "do"), ("action", .str "Wait"), ("duration", .int 3)]
      1080 1920 envAccept [] =
      (Except.ok ⟨false, false,
        some (.str "Action failed: 'int' object has no attribute 'replace'"), false⟩, []) := by
  decide

/-- Closed instance of C8: `duration = "3 minutes"` does not parse with the
`"seconds"` unit word, so the delay defaults to 1.0 and the wait succeeds. -/
theorem wait_unparsable_duration_defaults_witness :
    execute [("_metadata", .str "do"), ("action", .str "Wait"),
        ("duration", .str "3 minutes")] 1080 1920 envAccept [] =
      (Except.ok okResult, [DeviceOp.sleep 1]) :=
  wait_unparsable_duration_defaults
    [("_metadata", .str "do"), ("action", .str "Wait"), ("duration", .str "3 minutes")]
    1080 1920 envAccept [] "3 minutes" rfl rfl rfl (by decide)

/-- Rounding to binary64 commutes with negation (the rounding of the absolute
value is shared; only the sign factor flips). -/
theorem roundDouble_neg (q : ℚ) : roundDouble (-q) = -roundDouble q := by
  unfold roundDouble
  by_cases hq : q = 0
  · simp [hq]
  · rw [if_neg (neg_ne_zero.mpr hq), if_neg hq, abs_neg]
    dsimp only
    rcases lt_trichotomy q 0 with hlt | heq | hgt
    · rw [if_pos (neg_pos.mpr hlt), if_neg (not_lt.mpr hlt.le)]
      ring
    · exact absurd heq hq
    · rw [if_neg (by simpa using hgt.le), if_pos hgt]
      ring

/-- Python `int(...)` truncation commutes with negation (truncation toward
zero, unlike flooring). -/
theorem pyInt_neg (q : ℚ) : pyInt (-q) = -pyInt q := by
  unfold pyInt
  rcases lt_trichotomy q 0 with hlt | heq | hgt
  · rw [if_pos (by linarith), if_neg (not_le.mpr hlt), Int.floor_neg]
  · subst heq
    simp
  · rw [if_neg (by simpa using hgt), if_pos hgt.le, Int.ceil_neg]

/-- Claim C3 (corrected): the coordinate conversion applies the same float
arithmetic to every input with no clamping, and the final `int(...)` truncates
toward zero — so the map is odd: negating a logical coordinate negates the
output pixel exactly. (The claimed identity with `⌊x·w/1000⌋` fails under the
double rounding — see the counterexample.) -/
theorem convertCoord_neg (x : ℚ) (dim : ℤ) :
    convertCoord (-x) dim = -convertCoord x dim := by
  unfold convertCoord
  rw [neg_div, roundDouble_neg, neg_mul, roundDouble_neg, pyInt_neg]

/-- Claim C3 counterexample: at logical coordinate 18 on a 1500-pixel axis the
code computes `int(18 / 1000 * 1500) = 26` in float arithmetic, while the
claimed `⌊18 · 1500 / 1000⌋` is `27`. -/
theorem convert_relative_float_mismatch :
    convert_relative_to_absolute (.list [.int 18, .int 18]) 1500 1500 =
      Except.ok (26, 26) ∧
    (⌊(18 * 1500 : ℚ) / 1000⌋ : ℤ) = 27 ∧ (26 : ℤ) ≠ 27 := by
  refine ⟨by decide, by decide, by decide⟩

/-- An environment map that sets only the keyboard-switch delay, to `"abc"`. -/
def getenvBad : String → Option String := fun name =>
  if name = "PHONE_AGENT_KEYBOARD_SWITCH_DELAY" then some "abc" else Option.none

/-- An environment map that sets only the keyboard-switch delay, to `"1.5x"`. -/
def getenvBad2 : String → Option String := fun name =>
  if name = "PHONE_AGENT_KEYBOARD_SWITCH_DELAY" then some "1.5x" else Option.none

/-- Claim C9 (corrected): at startup the timing configuration uses the built-in
default only when a variable is unset; a set-but-unparsable override does not
fall back — `float(...)` raises `ValueError` out of the constructor. -/
theorem timing_env_override (getenv : String → Option String) (c : ActionTimingConfig) :
    (getenv "PHONE_AGENT_KEYBOARD_SWITCH_DELAY" = Option.none →
     getenv "PHONE_AGENT_TEXT_CLEAR_DELAY" = Option.none →
     getenv "PHONE_AGENT_TEXT_INPUT_DELAY" = Option.none →
     getenv "PHONE_AGENT_KEYBOARD_RESTORE_DELAY" = Option.none →
     action_timing_post_init getenv c = Except.ok c) ∧
    (∀ s, getenv "PHONE_AGENT_KEYBOARD_SWITCH_DELAY" = some s →
      pyFloat s = Option.none →
      action_timing_post_init getenv c =
        Except.error ("could not convert string to float: '" ++ s ++ "'")) := by
  constructor
  · intro h1 h2 h3 h4
    unfold action_timing_post_init envFloat
    rw [h1, h2, h3, h4]
  · intro s hset hparse
    unfold action_timing_post_init envFloat
    rw [hset]
    dsimp only
    rw [hparse]

/-- Claim C9 counterexample: with `PHONE_AGENT_KEYBOARD_SWITCH_DELAY="abc"` the
constructor raises instead of silently using the default 1.0. -/
theorem timing_env_override_counterexample :
    action_timing_post_init getenvBad defaultActionTiming =
      Except.error "could not convert string to float: 'abc'" ∧
    action_timing_post_init getenvBad defaultActionTiming ≠
      Except.ok defaultActionTiming := by
  refine ⟨by decide, by decide⟩

/-- Closed instance of C9: all variables unset yields the defaults unchanged;
a set-but-unparsable variable yields the error. -/
theorem timing_env_override_witness :
    action_timing_post_init (fun _ => Option.none) defaultActionTiming =
      Except.ok defaultActionTiming ∧
    action_timing_post_init getenvBad2 defaultActionTiming =
      Except.error "could not convert string to float: '1.5x'" := by
  refine ⟨?_, ?_⟩
  · exact (timing_env_override (fun _ => Option.none) defaultActionTiming).1 rfl rfl rfl rfl
  · exact (timing_env_override getenvBad2 defaultActionTiming).2 "1.5x" rfl (by decide)

/-- A Boolean is false when it cannot be true. -/
theorem bool_false_of (X : Bool) (h : X = true → False) : X = false := by
  cases X
  · rfl
  · exact absurd rfl h

/-- A string that starts with `p ++ q` starts with `p`. -/
theorem leadsWith_mono (p q s : List Char) (h : leadsWith (p ++ q) s = true) :
    leadsWith p s = true := by
  induction p generalizing s with
  | nil => rfl
  | cons c cs ih =>
    cases s with
    | nil =>
      rw [List.cons_append] at h
      exact absurd h (by simp [leadsWith])
    | cons d ds =>
      rw [List.cons_append] at h
      simp only [leadsWith, Bool.and_eq_true] at h ⊢
      exact ⟨h.1, ih ds h.2⟩

/-- Setting a fresh key appends it. -/
theorem dictSet_append (acc : ActionDict) (k : String) (v : LitValue)
    (h : ∀ p ∈ acc, p.1 ≠ k) : dictSet acc k v = acc ++ [(k, v)] := by
  induction acc with
  | nil => rfl
  | cons p rest ih =>
    rcases p with ⟨k2, v2⟩
    unfold dictSet
    rw [if_neg (h ⟨k2, v2⟩ (by simp))]
    rw [ih (fun p hp => h p (by simp [hp]))]
    rfl

/-- Folding fresh, pairwise-distinct keys into a dictionary appends them in
order. -/
theorem foldl_dictSet : ∀ (kws : List (String × LitValue)) (acc : ActionDict),
    (kws.map Prod.fst).Nodup →
    (∀ p ∈ acc, p.1 ∉ kws.map Prod.fst) →
    kws.foldl (fun a kv => dictSet a kv.1 kv.2) acc = acc ++ kws := by
  intro kws
  induction kws with
  | nil => intro acc _ _; simp
  | cons kv rest ih =>
    intro acc hnd hdisj
    rcases kv with ⟨k, v⟩
    simp only [List.foldl_cons]
    have hk : ∀ p ∈ acc, p.1 ≠ k := by
      intro p hp
      have := hdisj p hp
      simp only [List.map_cons, List.mem_cons, not_or] at this
      exact this.1
    rw [dictSet_append acc k v hk]
    have hmc : (((k, v) :: rest).map Prod.fst) = k :: rest.map Prod.fst := rfl
    rw [hmc] at hnd
    have hnd2 : (rest.map Prod.fst).Nodup := (List.nodup_cons.mp hnd).2
    have hknotin : k ∉ rest.map Prod.fst := (List.nodup_cons.mp hnd).1
    have hdisj2 : ∀ p ∈ acc ++ [(k, v)], p.1 ∉ rest.map Prod.fst := by
      intro p hp
      rcases List.mem_append.mp hp with hp | hp
      · have := hdisj p hp
        simp only [List.map_cons, List.mem_cons, not_or] at this
        exact this.2
      · simp only [List.mem_singleton] at hp
        rw [hp]
        exact hknotin
    rw [ih (acc ++ [(k, v)]) hnd2 hdisj2]
    simp

/-- `build_dict` on fresh, pairwise-distinct keyword arguments is exactly the
discriminator entry followed by the keyword arguments in order. -/
theorem build_dict_eq (kws : List (String × LitValue))
    (hnd : (kws.map Prod.fst).Nodup) (hm : "_metadata" ∉ kws.map Prod.fst) :
    build_dict kws = ("_metadata", .str "do") :: kws := by
  unfold build_dict
  rw [foldl_dictSet kws [("_metadata", .str "do")] hnd ?_]
  · rfl
  · intro p hp
    simp only [List.mem_singleton] at hp
    rw [hp]
    exact hm

/-- `build_dict` when a keyword argument is literally named `_metadata`: the
assignment `action[key] = value` overwrites the discriminator entry in place
(keeping its position), and the remaining keyword arguments follow in order. -/
theorem build_dict_overwrite (pre post : List (String × LitValue)) (v : LitValue)
    (hnd : ((pre ++ ("_metadata", v) :: post).map Prod.fst).Nodup) :
    build_dict (pre ++ ("_metadata", v) :: post) = ("_metadata", v) :: (pre ++ post) := by
  rw [List.map_append, List.map_cons, List.nodup_append] at hnd
  obtain ⟨hpre, hcons, hdisj⟩ := hnd
  have hmpost : "_metadata" ∉ post.map Prod.fst := (List.nodup_cons.mp hcons).1
  have hpost : (post.map Prod.fst).Nodup := (List.nodup_cons.mp hcons).2
  have hmpre : "_metadata" ∉ pre.map Prod.fst := by
    intro hmem
    exact hdisj hmem (List.mem_cons_self _ _)
  unfold build_dict
  rw [List.foldl_append]
  have hfresh1 : ∀ p ∈ ([("_metadata", LitValue.str "do")] : ActionDict),
      p.1 ∉ pre.map Prod.fst := by
    intro p hp
    simp only [List.mem_singleton] at hp
    rw [hp]
    exact hmpre
  rw [foldl_dictSet pre [("_metadata", LitValue.str "do")] hpre hfresh1]
  rw [List.foldl_cons]
  have hstep : dictSet ([("_metadata", LitValue.str "do")] ++ pre) "_metadata" v =
      ("_metadata", v) :: pre := by
    show dictSet (("_metadata", LitValue.str "do") :: pre) "_metadata" v = _
    unfold dictSet
    rw [if_pos rfl]
  rw [hstep]
  have hfresh2 : ∀ p ∈ (("_metadata", v) :: pre : ActionDict),
      p.1 ∉ post.map Prod.fst := by
    intro p hp
    rcases List.mem_cons.mp hp with hp | hp
    · rw [hp]
      exact hmpost
    · intro hmem
      exact hdisj (List.mem_map_of_mem Prod.fst hp) (List.mem_cons_of_mem _ hmem)
  rw [foldl_dictSet post (("_metadata", v) :: pre) hpost hfresh2]
  rfl

/-- Claim C4 (corrected): after stripping, an instruction that does not START
with `do` nor with `finish` fails with a `ParseError` carrying the offending
string; and a `do`-headed instruction whose call grammar fails to parse (in
particular, a keyword argument whose value is not a literal) fails with a
`ParseError` wrapping the inner error. The check is a string-prefix test, not a
leading-token test — see the counterexample. -/
theorem parse_action_failure_modes (s : String) :
    (leadsWith "do".data (pyStripChars s.data) = false →
     leadsWith "finish".data (pyStripChars s.data) = false →
     parse_action s =
       Except.error ("Failed to parse action: Failed to parse action: "
         ++ String.mk (pyStripChars s.data))) ∧
    (∀ e, leadsWith typeLead1 (pyStripChars s.data) = false →
      leadsWith typeLead2 (pyStripChars s.data) = false →
      leadsWith "do".data (pyStripChars s.data) = true →
      parseDoCall (pyStripChars s.data) = Except.error e →
      parse_action s =
        Except.error ("Failed to parse action: Failed to parse do() action: " ++ e)) := by
  constructor
  · intro hdo hfin
    have happ1 : typeLead1 = "do".data ++ "(action=\"Type\"".data := by decide
    have happ2 : typeLead2 = "do".data ++ "(action=\"Type_Name\"".data := by decide
    have ht1 : leadsWith typeLead1 (pyStripChars s.data) = false :=
      bool_false_of _ (fun hb => by
        rw [happ1] at hb
        exact Bool.noConfusion (hdo ▸ leadsWith_mono _ _ _ hb))
    have ht2 : leadsWith typeLead2 (pyStripChars s.data) = false :=
      bool_false_of _ (fun hb => by
        rw [happ2] at hb
        exact Bool.noConfusion (hdo ▸ leadsWith_mono _ _ _ hb))
    simp [parse_action, parse_action_inner, ht1, ht2, hdo, hfin]
    rw [← String.append_assoc]
    rfl
  · intro e ht1 ht2 hdo hpc
    simp [parse_action, parse_action_inner, ht1, ht2, hdo, hpc]
    rw [← String.append_assoc]
    rfl

/-- Claim C4 counterexample: `"dot(a=1)"` — whose leading identifier token is
`dot`, neither `do` nor `finish` — parses successfully through the generic
branch, because the source tests `response.startswith("do")`. -/
theorem parse_action_prefix_counterexample :
    parse_action "dot(a=1)" = Except.ok [("_metadata", .str "do"), ("a", .int 1)] ∧
    parseIdent "dot(a=1)".data = Except.ok ("dot", "(a=1)".data) ∧
    ("dot" : String) ≠ "do" ∧ ("dot" : String) ≠ "finish" := by
  refine ⟨by decide, by decide, by decide, by decide⟩

/-- Closed instance of C4: a non-`do`/`finish` instruction fails carrying the
offending string, and a `do(...)` with a non-literal keyword value fails. -/
theorem parse_action_failure_modes_witness :
    parse_action "hello world" =
      Except.error "Failed to parse action: Failed to parse action: hello world" ∧
    parse_action "do(action=\"Tap\", element=f(1))" =
      Except.error
        "Failed to parse action: Failed to parse do() action: malformed node or string: f" := by
  refine ⟨?_, ?_⟩
  · exact (parse_action_failure_modes "hello world").1 (by decide) (by decide)
  · exact (parse_action_failure_modes "do(action=\"Tap\", element=f(1))").2
      "malformed node or string: f" (by decide) (by decide) (by decide) (by decide)

/-- Claim C5 (corrected): a `do(...)` instruction accepted through the generic
branch yields the `do` discriminator plus exactly the keyword arguments present,
in order, with their literal values — unless a keyword argument is literally
named `_metadata`, in which case `action[key] = value` overwrites the
discriminator in place, so the returned command can carry a different
discriminator (e.g. `finish`). An instruction matching the
`do(action="Type"`/`do(action="Type_Name"` head is special-cased — its `action`
is recorded as `"Type"` (even for `Type_Name`) and only the positionally
extracted `text` payload is kept. -/
theorem parse_action_do_shapes (s : String) :
    (∀ rest, (leadsWith typeLead1 (pyStripChars s.data) = true ∨
              leadsWith typeLead2 (pyStripChars s.data) = true) →
      splitAfterFirst "text=".data (pyStripChars s.data) = some rest →
      parse_action s = Except.ok [("_metadata", .str "do"), ("action", .str "Type"),
        ("text", .str (String.mk (slice1m2 rest)))]) ∧
    (∀ kws, leadsWith typeLead1 (pyStripChars s.data) = false →
      leadsWith typeLead2 (pyStripChars s.data) = false →
      leadsWith "do".data (pyStripChars s.data) = true →
      parseDoCall (pyStripChars s.data) = Except.ok kws →
      (kws.map Prod.fst).Nodup →
      "_metadata" ∉ kws.map Prod.fst →
      parse_action s = Except.ok (("_metadata", .str "do") :: kws)) ∧
    (∀ pre post v, leadsWith typeLead1 (pyStripChars s.data) = false →
      leadsWith typeLead2 (pyStripChars s.data) = false →
      leadsWith "do".data (pyStripChars s.data) = true →
      parseDoCall (pyStripChars s.data) = Except.ok (pre ++ ("_metadata", v) :: post) →
      ((pre ++ ("_metadata", v) :: post).map Prod.fst).Nodup →
      parse_action s = Except.ok (("_metadata", v) :: (pre ++ post))) := by
  refine ⟨?_, ?_, ?_⟩
  · intro rest hlead hsplit
    have hcond : (leadsWith typeLead1 (pyStripChars s.data) ||
        leadsWith typeLead2 (pyStripChars s.data)) = true := by
      rcases hlead with hl | hl
      · rw [hl]; rfl
      · rw [hl]; simp
    simp [parse_action, parse_action_inner, hcond, hsplit]
  · intro kws ht1 ht2 hdo hpc hnd hm
    simp [parse_action, parse_action_inner, ht1, ht2, hdo, hpc, build_dict_eq kws hnd hm]
  · intro pre post v ht1 ht2 hdo hpc hnd
    simp [parse_action, parse_action_inner, ht1, ht2, hdo, hpc,
      build_dict_overwrite pre post v hnd]

/-- Claim C5 counterexample: `do(action="Type_Name", text="hi")` is parsed by
the special case into a command whose `action` is `"Type"`, not the
`"Type_Name"` named in the instruction. -/
theorem parse_action_type_name_counterexample :
    parse_action "do(action=\"Type_Name\", text=\"hi\")" =
      Except.ok [("_metadata", .str "do"), ("action", .str "Type"), ("text", .str "hi")] ∧
    dictGet [("_metadata", .str "do"), ("action", .str "Type"), ("text", .str "hi")]
      "action" ≠ some (.str "Type_Name") := by
  refine ⟨by decide, by decide⟩

/-- Closed instance of C5: a generic `do` instruction yields exactly its
keyword arguments, and a keyword argument named `_metadata` overwrites the
discriminator. -/
theorem parse_action_do_shapes_witness :
    parse_action "do(action=\"Tap\", element=[500,500])" =
      Except.ok [("_metadata", .str "do"), ("action", .str "Tap"),
        ("element", .list [.int 500, .int 500])] ∧
    parse_action "do(_metadata=\"finish\", message=\"x\")" =
      Except.ok [("_metadata", .str "finish"), ("message", .str "x")] := by
  refine ⟨?_, ?_⟩
  · exact (parse_action_do_shapes "do(action=\"Tap\", element=[500,500])").2.1
      [("action", .str "Tap"), ("element", .list [.int 500, .int 500])]
      (by decide) (by decide) (by decide) (by decide) (by decide) (by decide)
  · exact (parse_action_do_shapes "do(_metadata=\"finish\", message=\"x\")").2.2
      [] [("message", .str "x")] (.str "finish")
      (by decide) (by decide) (by decide) (by decide) (by decide)

end AutoGLM
